import Mathlib

/-!
# SpeakerTimer — formal model of the server-side room state machine

Shallow embedding of the countdown-timer server of this repository.
The authoritative implementation is `src/backend/server.js`; the repository
also contains a second server variant (second document of
`src/unnamed/part_000`) whose per-command state machine is identical but
whose snapshot plumbing differs (a 100 ms snapshot heartbeat with a
per-tick message cache, and a requester-only `requestSnapshot`).  Both are
modelled below; definitions shared verbatim by the two variants appear once.

JavaScript numbers are modelled by `JsNum`: either `NaN` or a rational.
All arithmetic appearing in the source (`+`, `-`, `Math.max`, `Math.min`,
comparisons, `Number.isFinite`, `x || d`) is exact on rationals at the
magnitudes the program uses, and `NaN` propagation is modelled explicitly
(JS `Math.max`/`Math.min` return `NaN` when an argument is `NaN`, and
`NaN` compares false).  Infinities do not arise in the modelled code paths.
The server's repeated `now()` reads inside one logical operation are
modelled as explicit instants: `n` for the command's as-of instant and
`nb` for the (single) instant of the post-command finalize/broadcast phase.
-/

/-- A JavaScript number: `NaN` or a (finite) rational value. -/
inductive JsNum where
  | nan : JsNum
  | num : ℚ → JsNum
deriving DecidableEq

namespace JsNum

/-- JS `a + b` (NaN-absorbing). -/
def add : JsNum → JsNum → JsNum
  | num a, num b => num (a + b)
  | _, _ => nan

/-- JS `a - b` (NaN-absorbing). -/
def sub : JsNum → JsNum → JsNum
  | num a, num b => num (a - b)
  | _, _ => nan

/-- JS `Math.max(a, b)`: `NaN` if either argument is `NaN`. -/
def jmax : JsNum → JsNum → JsNum
  | num a, num b => num (max a b)
  | _, _ => nan

/-- JS `Math.min(a, b)`: `NaN` if either argument is `NaN`. -/
def jmin : JsNum → JsNum → JsNum
  | num a, num b => num (min a b)
  | _, _ => nan

/-- JS `a < b` / `b > a`: any comparison with `NaN` is false. -/
def lt : JsNum → JsNum → Bool
  | num a, num b => decide (a < b)
  | _, _ => false

/-- JS `Number.isFinite` (our model has no infinities, so only `NaN` fails). -/
def isFinite : JsNum → Bool
  | num _ => true
  | nan => false

/-- JS `x || d` for a number `x` and fallback `d`: `NaN` and `0` are falsy. -/
def orElse : JsNum → ℚ → ℚ
  | nan, d => d
  | num q, d => if q = 0 then d else q

/-- JS `x || 0` for a number `x`. -/
def orZero (v : JsNum) : ℚ := v.orElse 0

end JsNum

/-- `src/backend/server.js` `clampNonNeg`:
`Number.isFinite(n) ? Math.max(0, n) : 0`.  The result is always a plain
(non-NaN) number, so we return a rational. -/
def clampNonNeg : JsNum → ℚ
  | JsNum.nan => 0
  | JsNum.num q => max 0 q

/-- Room status: `"idle" | "running" | "paused" | "finished"`. -/
inductive Status where
  | idle | running | paused | finished
deriving DecidableEq

/-- Connection role: `"control" | "display"` (`normalizeRole` admits no others). -/
inductive Role where
  | control | display
deriving DecidableEq

/-- The per-room server state (`room.state` in `src/backend/server.js`).
`deadlineMs = none` models JS `null`; `some v` models a value of JS type
number (which may be `NaN`).  The `thresholds` object is flattened to its
two fields. -/
structure RoomState where
  roomId : String
  status : Status
  durationMs : JsNum
  deadlineMs : Option JsNum
  remainingMs : JsNum
  t0 : Option JsNum
  elapsedPausedMs : JsNum
  yellowFrac : JsNum
  redFrac : JsNum
  updatedAt : ℚ
deriving DecidableEq

/-- The state installed by `ensureRoom` for a room created at instant `t`. -/
def initRoom (roomId : String) (t : ℚ) : RoomState :=
  { roomId := roomId
    status := Status.idle
    durationMs := JsNum.num 180000
    deadlineMs := none
    remainingMs := JsNum.num 180000
    t0 := none
    elapsedPausedMs := JsNum.num 0
    yellowFrac := JsNum.num (1/2)
    redFrac := JsNum.num (1/10)
    updatedAt := t }

/-- `remainingFromAuthoritative(s, at)`: deadline-based while
`status === "running" && typeof deadlineMs === "number"`, otherwise the
stored `remainingMs`; always clamped non-negative. -/
def remainingFromAuthoritative (s : RoomState) (t : ℚ) : ℚ :=
  match s.status, s.deadlineMs with
  | Status.running, some d => clampNonNeg (JsNum.sub d (JsNum.num t))
  | _, _ => clampNonNeg s.remainingMs

/-- `syncLegacyFields(s, at)`: recomputes the legacy mirror fields
`elapsedPausedMs = clampNonNeg((Number(durationMs) || 0) - rem)` and
`t0 = deadlineMs - (Number(durationMs) || 0)` when running, else `null`. -/
def syncLegacyFields (s : RoomState) (t : ℚ) : RoomState :=
  let rem := remainingFromAuthoritative s t
  { s with
    elapsedPausedMs := JsNum.num (max 0 (s.durationMs.orZero - rem))
    t0 :=
      match s.status, s.deadlineMs with
      | Status.running, some d => some (JsNum.sub d (JsNum.num s.durationMs.orZero))
      | _, _ => none }

/-- `finalizeIfElapsed(roomId, at)`: a running room whose authoritative
remaining time is `≤ 0` flips to `finished` (deadline cleared, remaining
pinned to 0, `updatedAt := at`, legacy fields resynced). -/
def finalizeIfElapsed (s : RoomState) (t : ℚ) : RoomState :=
  if s.status = Status.running ∧ remainingFromAuthoritative s t ≤ 0 then
    syncLegacyFields
      { s with status := Status.finished, deadlineMs := none
               remainingMs := JsNum.num 0, updatedAt := t } t
  else s

/-- Inbound commands of the wire protocol (known `type`s other than
`join`/`leave`).  A payload field is `none` when absent/`undefined`
(so `??` falls back), and `some v` when present with `Number`-conversion
`v`.  For `setThresholds`, `isObj` records whether the payload was an
object, and the two fields are the `Number`-conversions of
`payload.yellowFrac` / `payload.redFrac` (absent field ⇒ `NaN`). -/
inductive Cmd where
  | start (durationMs : Option JsNum)
  | pause
  | resume
  | reset
  | setDuration (durationMs : Option JsNum)
  | adjustTime (deltaMs : Option JsNum)
  | setThresholds (isObj : Bool) (yellowFrac redFrac : JsNum)
  | finish
  | requestSnapshot
deriving DecidableEq

/-- The `mutating` predicate of the message handler: every command type
except `requestSnapshot` requires `role === "control"`. -/
def isMutating : Cmd → Bool
  | Cmd.requestSnapshot => false
  | _ => true

/-- The body of the message handler's `switch (type)` at as-of instant `n`
(identical in both server variants; `requestSnapshot` is a state no-op in
both). -/
def applyCmd (s : RoomState) (c : Cmd) (n : ℚ) : RoomState :=
  match c with
  | Cmd.start o =>
      let durationMs := JsNum.jmax (JsNum.num 1000) (o.getD s.durationMs)
      syncLegacyFields
        { s with status := Status.running, durationMs := durationMs
                 remainingMs := durationMs
                 deadlineMs := some (JsNum.add (JsNum.num n) durationMs)
                 updatedAt := n } n
  | Cmd.pause =>
      if s.status = Status.running then
        let rem := remainingFromAuthoritative s n
        syncLegacyFields
          { s with status := Status.paused, remainingMs := JsNum.num rem
                   deadlineMs := none, updatedAt := n } n
      else s
  | Cmd.resume =>
      if s.status = Status.paused then
        let rem := clampNonNeg s.remainingMs
        syncLegacyFields
          { s with status := Status.running
                   deadlineMs := some (JsNum.num (n + rem))
                   updatedAt := n } n
      else s
  | Cmd.reset =>
      syncLegacyFields
        { s with status := Status.idle
                 remainingMs := JsNum.num (max 0 s.durationMs.orZero)
                 deadlineMs := none, updatedAt := n } n
  | Cmd.setDuration o =>
      let newDur := JsNum.jmax (JsNum.num 1000) (o.getD s.durationMs)
      let oldDur : ℚ := max 1000 (s.durationMs.orElse 180000)
      let currentRem := remainingFromAuthoritative s n
      let elapsed : ℚ := max 0 (oldDur - currentRem)
      if s.status = Status.running then
        let newRem := clampNonNeg (JsNum.sub newDur (JsNum.num elapsed))
        syncLegacyFields
          { s with durationMs := newDur, remainingMs := JsNum.num newRem
                   deadlineMs := some (JsNum.num (n + newRem))
                   updatedAt := n } n
      else
        let clampedRem := JsNum.jmin (JsNum.num currentRem) newDur
        syncLegacyFields
          { s with durationMs := newDur
                   remainingMs := JsNum.num (clampNonNeg clampedRem)
                   deadlineMs := none, updatedAt := n } n
  | Cmd.adjustTime o =>
      let delta := o.getD (JsNum.num 0)
      match s.status, s.deadlineMs with
      | Status.running, some d =>
          let newDeadline := JsNum.jmax (JsNum.num (n + 1000)) (JsNum.add d delta)
          let s1 := { s with deadlineMs := some newDeadline }
          let newRemaining := remainingFromAuthoritative s1 n
          syncLegacyFields
            { s1 with
                remainingMs := JsNum.num newRemaining
                durationMs :=
                  if s1.durationMs.lt (JsNum.num newRemaining) then JsNum.num newRemaining
                  else s1.durationMs
                updatedAt := n } n
      | _, _ =>
          let newRem := clampNonNeg (JsNum.add s.remainingMs delta)
          syncLegacyFields
            { s with
                durationMs :=
                  if s.durationMs.lt (JsNum.num newRem) then JsNum.num newRem
                  else s.durationMs
                remainingMs := JsNum.num newRem
                updatedAt := n, deadlineMs := none } n
  | Cmd.setThresholds isObj yf rf =>
      let s1 :=
        if isObj ∧ (yf.isFinite ∨ rf.isFinite) then
          { s with yellowFrac := if yf.isFinite then yf else s.yellowFrac
                   redFrac := if rf.isFinite then rf else s.redFrac }
        else s
      { s1 with updatedAt := n }
  | Cmd.finish =>
      syncLegacyFields
        { s with status := Status.finished, deadlineMs := none
                 remainingMs := JsNum.num 0, updatedAt := n } n
  | Cmd.requestSnapshot => s

/-- Who receives a snapshot as a result of handling one inbound message. -/
inductive Sendee where
  | nobody
  | requester
  | members
deriving DecidableEq

/-- Result of the message handler: the room state afterwards and who was
sent a snapshot. -/
structure HandlerResult where
  state : RoomState
  sent : Sendee
deriving DecidableEq

/-- State effect of `broadcast`/`buildSnapshotMessage` at instant `t`:
finalize, then resync legacy fields. -/
def broadcastPhase (s : RoomState) (t : ℚ) : RoomState :=
  syncLegacyFields (finalizeIfElapsed s t) t

/-- The message handler of `src/backend/server.js` for a known command
`c` on a connection of role `role`: the role gate drops unauthorized
mutating commands; otherwise finalize-before-apply at `n`, the `switch`
body, then the trailing `finalizeIfElapsed` and `broadcast` (whose clock
reads are modelled as the single instant `nb`).  Note `requestSnapshot`
falls through to the broadcast, so every member receives the snapshot. -/
def handleMessage (s : RoomState) (role : Role) (c : Cmd) (n nb : ℚ) :
    HandlerResult :=
  if isMutating c = true ∧ role ≠ Role.control then
    { state := s, sent := Sendee.nobody }
  else
    { state :=
        broadcastPhase
          (finalizeIfElapsed (applyCmd (finalizeIfElapsed s n) c n) nb) nb
      sent := Sendee.members }

/-- The message handler of the `src/unnamed/part_000` server variant:
identical except that `requestSnapshot` sends an immediate snapshot to the
requester only (via `sendSnapshot` → `buildSnapshotMessage`) and returns
before the trailing finalize/broadcast. -/
def handleMessageB (s : RoomState) (role : Role) (c : Cmd) (n nb : ℚ) :
    HandlerResult :=
  if isMutating c = true ∧ role ≠ Role.control then
    { state := s, sent := Sendee.nobody }
  else if c = Cmd.requestSnapshot then
    { state := broadcastPhase (finalizeIfElapsed s n) nb
      sent := Sendee.requester }
  else
    { state :=
        broadcastPhase
          (finalizeIfElapsed (applyCmd (finalizeIfElapsed s n) c n) nb) nb
      sent := Sendee.members }

/-- A serialized snapshot message (`makeSnapshotPayload`): the full room
state spread into the payload, the two fixed thresholds, and the server
clock instant captured at build time. -/
structure SnapshotMsg where
  state : RoomState
  yellowAtMs : ℚ
  redAtMs : ℚ
  serverNow : ℚ
deriving DecidableEq

/-- `makeSnapshotPayload(s, serverNowMs)` of the `part_000` server variant
(fixed thresholds `yellowAtMs = 60000`, `redAtMs = 30000`). -/
def makeSnapshotPayload (s : RoomState) (serverNowMs : ℚ) : SnapshotMsg :=
  { state := s, yellowAtMs := 60000, redAtMs := 30000, serverNow := serverNowMs }

/-- A room entry of the `part_000` variant's registry: the state, the
number of member connections, and the per-tick broadcast cache
(`_lastMsg` / `_lastMsgAt`, initialised to `null` / `0`). -/
structure RoomBox where
  state : RoomState
  clientsCount : Nat
  lastMsg : Option SnapshotMsg
  lastMsgAt : ℚ
deriving DecidableEq

/-- `_lastMsg`, when present, was serialized with `serverNow = _lastMsgAt`
(true of every cache entry the heartbeat itself writes). -/
def cacheOk (r : RoomBox) : Bool :=
  match r.lastMsg with
  | none => true
  | some m => m.serverNow = r.lastMsgAt

/-- Outcome of one heartbeat visit to one room: the updated room entry,
the snapshot delivered to every member connection this tick (`none` when
the room was skipped), and whether `JSON.stringify` actually ran (i.e. a
fresh message was serialized rather than the per-tick cache reused). -/
structure TickResult where
  box : RoomBox
  sent : Option SnapshotMsg
  rebuilt : Bool
deriving DecidableEq

/-- The `active` test of the heartbeat loop:
`status === "running" || status === "paused" || status === "finished"`. -/
def isActive (st : Status) : Bool :=
  st = Status.running || st = Status.paused || st = Status.finished

/-- One iteration of the `SNAPSHOT_TICK_MS` heartbeat
(`src/unnamed/part_000`) on one room at tick instant `t`: skip empty or
idle rooms; otherwise run `finalizeIfElapsed`, then build the snapshot
message — reusing `_lastMsg` when `_lastMsgAt === t`, else resyncing the
legacy fields and serializing afresh — and send it to every member. -/
def heartbeatTick (r : RoomBox) (t : ℚ) : TickResult :=
  if r.clientsCount = 0 then { box := r, sent := none, rebuilt := false }
  else if isActive r.state.status = false then
    { box := r, sent := none, rebuilt := false }
  else
    let s1 := finalizeIfElapsed r.state t
    match r.lastMsg with
    | some m0 =>
        if r.lastMsgAt = t then
          { box := { r with state := s1 }, sent := some m0, rebuilt := false }
        else
          let s2 := syncLegacyFields s1 t
          let m := makeSnapshotPayload s2 t
          { box := { r with state := s2, lastMsg := some m, lastMsgAt := t }
            sent := some m, rebuilt := true }
    | none =>
        let s2 := syncLegacyFields s1 t
        let m := makeSnapshotPayload s2 t
        { box := { r with state := s2, lastMsg := some m, lastMsgAt := t }
          sent := some m, rebuilt := true }

/-- The invariant claimed for `{deadlineMs, remainingMs}` authority:
`deadlineMs` is a JS number exactly while running, and `null` otherwise
(so `remainingMs` is the authoritative time source exactly when not
running). -/
def statusDeadlineOk (s : RoomState) : Prop :=
  (s.status = Status.running → s.deadlineMs ≠ none) ∧
  (s.status ≠ Status.running → s.deadlineMs = none)

instance (s : RoomState) : Decidable (statusDeadlineOk s) := by
  unfold statusDeadlineOk; infer_instance

/-- A running room whose deadline (epoch 1000 ms) has already passed by
the time a command arrives; legacy fields as `start` left them. -/
def expiredRoom : RoomState :=
  { roomId := "DEMO"
    status := Status.running
    durationMs := JsNum.num 180000
    deadlineMs := some (JsNum.num 1000)
    remainingMs := JsNum.num 180000
    t0 := some (JsNum.num (-179000))
    elapsedPausedMs := JsNum.num 0
    yellowFrac := JsNum.num (1/2)
    redFrac := JsNum.num (1/10)
    updatedAt := 0 }

/-- A paused room with 50 s left, legacy mirror fields consistent (as the
`pause` command leaves them). -/
def pausedRoom : RoomState :=
  { roomId := "DEMO"
    status := Status.paused
    durationMs := JsNum.num 180000
    deadlineMs := none
    remainingMs := JsNum.num 50000
    t0 := none
    elapsedPausedMs := JsNum.num 130000
    yellowFrac := JsNum.num (1/2)
    redFrac := JsNum.num (1/10)
    updatedAt := 7 }

/-- The room obtained by `start({durationMs: 60000})` at instant 0 on a
fresh room: running with full 60 s remaining (deadline 60000). -/
def room60 : RoomState :=
  applyCmd (initRoom "DEMO" 0) (Cmd.start (some (JsNum.num 60000))) 0

/-- A registry entry for `pausedRoom` with one member connection and an
empty heartbeat cache. -/
def pausedBox : RoomBox :=
  { state := pausedRoom, clientsCount := 1, lastMsg := none, lastMsgAt := 0 }

section HelperLemmas

variable (s : RoomState) (t : ℚ)

theorem syncLegacyFields_roomId : (syncLegacyFields s t).roomId = s.roomId := rfl

theorem syncLegacyFields_status : (syncLegacyFields s t).status = s.status := rfl

theorem syncLegacyFields_durationMs :
    (syncLegacyFields s t).durationMs = s.durationMs := rfl

theorem syncLegacyFields_deadlineMs :
    (syncLegacyFields s t).deadlineMs = s.deadlineMs := rfl

theorem syncLegacyFields_remainingMs :
    (syncLegacyFields s t).remainingMs = s.remainingMs := rfl

theorem syncLegacyFields_yellowFrac :
    (syncLegacyFields s t).yellowFrac = s.yellowFrac := rfl

theorem syncLegacyFields_redFrac :
    (syncLegacyFields s t).redFrac = s.redFrac := rfl

theorem syncLegacyFields_updatedAt :
    (syncLegacyFields s t).updatedAt = s.updatedAt := rfl

/-- A non-running room is untouched by `finalizeIfElapsed`. -/
theorem finalizeIfElapsed_of_not_running (h : s.status ≠ Status.running) :
    finalizeIfElapsed s t = s := by
  unfold finalizeIfElapsed
  exact if_neg (fun hc => h hc.1)

/-- A running room with remaining time still positive is untouched by
`finalizeIfElapsed`. -/
theorem finalizeIfElapsed_of_pos (h : 0 < remainingFromAuthoritative s t) :
    finalizeIfElapsed s t = s := by
  unfold finalizeIfElapsed
  exact if_neg (fun hc => absurd hc.2 (not_le.mpr h))

/-- When a running room has elapsed, `finalizeIfElapsed` performs the
finish-transition followed by the legacy resync. -/
theorem finalizeIfElapsed_fires (h1 : s.status = Status.running)
    (h2 : remainingFromAuthoritative s t ≤ 0) :
    finalizeIfElapsed s t =
      syncLegacyFields
        { s with status := Status.finished, deadlineMs := none
                 remainingMs := JsNum.num 0, updatedAt := t } t := by
  unfold finalizeIfElapsed
  exact if_pos ⟨h1, h2⟩

/-- An expired deadline yields zero authoritative remaining time. -/
theorem remainingFromAuthoritative_expired (d : ℚ)
    (h1 : s.status = Status.running) (h2 : s.deadlineMs = some (JsNum.num d))
    (h3 : d ≤ t) : remainingFromAuthoritative s t = 0 := by
  unfold remainingFromAuthoritative
  rw [h1, h2]
  simp only [JsNum.sub, clampNonNeg]
  exact max_eq_left (by linarith)

/-- `finalizeIfElapsed` keeps the status or moves it to `finished`. -/
theorem finalizeIfElapsed_status_cases :
    (finalizeIfElapsed s t).status = s.status ∨
      (finalizeIfElapsed s t).status = Status.finished := by
  unfold finalizeIfElapsed
  split
  · exact Or.inr rfl
  · exact Or.inl rfl

/-- `finalizeIfElapsed` preserves activity of the status. -/
theorem isActive_finalizeIfElapsed (h : isActive s.status = true) :
    isActive (finalizeIfElapsed s t).status = true := by
  rcases finalizeIfElapsed_status_cases s t with hc | hc <;> rw [hc]
  · exact h
  · rfl

end HelperLemmas

/-- Claim C1, counterexample.  The claim asserts that `adjustTime(+30000)`
on a running room whose deadline has passed leaves `status = running`.
On the code it does not: `expiredRoom` is running with deadline 1000 < t =
2000, yet after `adjustTime(+30000)` the room is `finished` (the
pre-command finalize flips it, and the adjustTime non-running branch never
sets the status back to running). -/
theorem claim_C1_counterexample :
    expiredRoom.status = Status.running ∧
    expiredRoom.deadlineMs = some (JsNum.num 1000) ∧ (1000 : ℚ) < 2000 ∧
    (handleMessage expiredRoom Role.control
        (Cmd.adjustTime (some (JsNum.num 30000))) 2000 2000).state.status =
      Status.finished ∧
    Status.finished ≠ Status.running := by
  refine ⟨rfl, rfl, by norm_num, ?_, by decide⟩
  norm_num [handleMessage, broadcastPhase, applyCmd, finalizeIfElapsed,
    syncLegacyFields, remainingFromAuthoritative, clampNonNeg, JsNum.add,
    JsNum.sub, JsNum.jmax, JsNum.jmin, JsNum.lt, JsNum.orZero, JsNum.orElse,
    isMutating, expiredRoom, max_def]

/-- Claim C1 as amended: `adjustTime(+30000)` on a running room whose
deadline `d` has passed by the as-of instant `t` yields
`remainingMs = 30000` computed from the fresh zero baseline installed by
finalize-on-elapse (never stale negative-remaining arithmetic), with
`status = finished` (the non-running `adjustTime` branch does not restart
the room) and `deadlineMs = null`. -/
theorem claim_C1_amended (s : RoomState) (d t nb : ℚ)
    (hs : s.status = Status.running) (hd : s.deadlineMs = some (JsNum.num d))
    (hp : d ≤ t) :
    (handleMessage s Role.control
        (Cmd.adjustTime (some (JsNum.num 30000))) t nb).state.status =
      Status.finished ∧
    (handleMessage s Role.control
        (Cmd.adjustTime (some (JsNum.num 30000))) t nb).state.remainingMs =
      JsNum.num 30000 ∧
    (handleMessage s Role.control
        (Cmd.adjustTime (some (JsNum.num 30000))) t nb).state.deadlineMs =
      none := by
  have hrem : remainingFromAuthoritative s t = 0 :=
    remainingFromAuthoritative_expired s t d hs hd hp
  have hfin := finalizeIfElapsed_fires s t hs (le_of_eq hrem)
  have hmsg : handleMessage s Role.control
      (Cmd.adjustTime (some (JsNum.num 30000))) t nb =
      { state := broadcastPhase (finalizeIfElapsed
          (applyCmd (finalizeIfElapsed s t)
            (Cmd.adjustTime (some (JsNum.num 30000))) t) nb) nb
        sent := Sendee.members } := by
    unfold handleMessage
    exact if_neg (fun h => h.2 rfl)
  rw [hmsg, hfin]
  have happ : applyCmd (syncLegacyFields
      { s with status := Status.finished, deadlineMs := none
               remainingMs := JsNum.num 0, updatedAt := t } t)
      (Cmd.adjustTime (some (JsNum.num 30000))) t =
      syncLegacyFields
        { (syncLegacyFields
            { s with status := Status.finished, deadlineMs := none
                     remainingMs := JsNum.num 0, updatedAt := t } t) with
          durationMs :=
            if ((syncLegacyFields
                { s with status := Status.finished, deadlineMs := none
                         remainingMs := JsNum.num 0, updatedAt := t } t).durationMs).lt
                (JsNum.num 30000) then JsNum.num 30000
            else (syncLegacyFields
                { s with status := Status.finished, deadlineMs := none
                         remainingMs := JsNum.num 0, updatedAt := t } t).durationMs
          remainingMs := JsNum.num 30000
          updatedAt := t, deadlineMs := none } t := by
    simp only [applyCmd, syncLegacyFields_status, syncLegacyFields_deadlineMs,
      syncLegacyFields_remainingMs, Option.getD, JsNum.add, clampNonNeg]
    norm_num
  rw [happ]
  have hnr : ∀ u : ℚ, ∀ X : RoomState, X.status = Status.finished →
      finalizeIfElapsed X u = X := by
    intro u X hX
    exact finalizeIfElapsed_of_not_running X u (by rw [hX]; decide)
  rw [hnr nb _ (by rw [syncLegacyFields_status]; rfl)]
  unfold broadcastPhase
  rw [hnr nb _ (by rw [syncLegacyFields_status]; rfl)]
  refine ⟨?_, ?_, ?_⟩ <;> rfl

/-- Witness for the amended C1 at a concrete input: the expired room
(deadline 1000, as-of instant 2000) after `adjustTime(+30000)`. -/
theorem claim_C1_amended_witness :
    (handleMessage expiredRoom Role.control
        (Cmd.adjustTime (some (JsNum.num 30000))) 2000 2500).state.status =
      Status.finished ∧
    (handleMessage expiredRoom Role.control
        (Cmd.adjustTime (some (JsNum.num 30000))) 2000 2500).state.remainingMs =
      JsNum.num 30000 ∧
    (handleMessage expiredRoom Role.control
        (Cmd.adjustTime (some (JsNum.num 30000))) 2000 2500).state.deadlineMs =
      none :=
  claim_C1_amended expiredRoom 1000 2000 2500 rfl rfl (by norm_num)

/-- Claim C2 (confirmed): for every command `c` and as-of instant `n`, a
running room whose authoritative remaining time is `≤ 0` is first
transitioned to `finished` — deadline cleared, remaining pinned to 0,
`updatedAt := n` — and the command is then applied to that finished state
(the handler is exactly finalize-then-apply followed by the
finalize/broadcast phase). -/
theorem claim_C2 (s : RoomState) (c : Cmd) (n nb : ℚ)
    (hr : s.status = Status.running)
    (he : remainingFromAuthoritative s n ≤ 0) :
    (finalizeIfElapsed s n).status = Status.finished ∧
    (finalizeIfElapsed s n).deadlineMs = none ∧
    (finalizeIfElapsed s n).remainingMs = JsNum.num 0 ∧
    (finalizeIfElapsed s n).updatedAt = n ∧
    handleMessage s Role.control c n nb =
      { state := broadcastPhase
          (finalizeIfElapsed (applyCmd (finalizeIfElapsed s n) c n) nb) nb
        sent := Sendee.members } := by
  have hfin := finalizeIfElapsed_fires s n hr he
  refine ⟨?_, ?_, ?_, ?_, ?_⟩
  · rw [hfin, syncLegacyFields_status]
  · rw [hfin, syncLegacyFields_deadlineMs]
  · rw [hfin, syncLegacyFields_remainingMs]
  · rw [hfin, syncLegacyFields_updatedAt]
  · unfold handleMessage
    exact if_neg (fun h => h.2 rfl)

/-- Witness for C2: the expired room receiving a `pause` at instant 2000. -/
theorem claim_C2_witness :
    (finalizeIfElapsed expiredRoom 2000).status = Status.finished ∧
    (finalizeIfElapsed expiredRoom 2000).deadlineMs = none ∧
    (finalizeIfElapsed expiredRoom 2000).remainingMs = JsNum.num 0 ∧
    (finalizeIfElapsed expiredRoom 2000).updatedAt = 2000 ∧
    handleMessage expiredRoom Role.control Cmd.pause 2000 2000 =
      { state := broadcastPhase (finalizeIfElapsed
          (applyCmd (finalizeIfElapsed expiredRoom 2000) Cmd.pause 2000) 2000) 2000
        sent := Sendee.members } :=
  claim_C2 expiredRoom Cmd.pause 2000 2000 rfl
    (by norm_num [remainingFromAuthoritative, expiredRoom, clampNonNeg,
      JsNum.sub, max_def])

/-- Claim C4, failing evaluation (code bug).  A `start` whose
`durationMs` payload is non-numeric (e.g. the string `"abc"`, whose
`Number` conversion is `NaN`) defeats the `Math.max(1000, …)` floor
(`Math.max(1000, NaN) = NaN`), so the room's `durationMs` becomes `NaN` —
not a finite integer ≥ 1000 as the claim states. -/
theorem claim_C4_code_bug :
    (handleMessage (initRoom "DEMO" 0) Role.control
        (Cmd.start (some JsNum.nan)) 0 0).state.durationMs = JsNum.nan ∧
    JsNum.nan.isFinite = false := by
  constructor
  · norm_num [handleMessage, broadcastPhase, applyCmd, finalizeIfElapsed,
      syncLegacyFields, remainingFromAuthoritative, clampNonNeg, JsNum.add,
      JsNum.sub, JsNum.jmax, JsNum.jmin, JsNum.lt, JsNum.orZero, JsNum.orElse,
      isMutating, initRoom, max_def]
  · rfl

/-- Claim C3 (confirmed): the `adjustTime` case on a room that is running
with a numeric deadline `d` and numeric duration `D` sets the new deadline
to `max(t + 1000, d + delta)` — never below `t + 1000` — recomputes
`remainingMs` from it (`max(t+1000, d+delta) - t`), and raises
`durationMs` to the new remaining exactly when it exceeds `D`
(duration auto-expansion). -/
theorem claim_C3 (s : RoomState) (d D delta t : ℚ)
    (hs : s.status = Status.running)
    (hd : s.deadlineMs = some (JsNum.num d))
    (hD : s.durationMs = JsNum.num D) :
    (applyCmd s (Cmd.adjustTime (some (JsNum.num delta))) t).deadlineMs =
      some (JsNum.num (max (t + 1000) (d + delta))) ∧
    (applyCmd s (Cmd.adjustTime (some (JsNum.num delta))) t).remainingMs =
      JsNum.num (max (t + 1000) (d + delta) - t) ∧
    (applyCmd s (Cmd.adjustTime (some (JsNum.num delta))) t).durationMs =
      JsNum.num (max D (max (t + 1000) (d + delta) - t)) := by
  obtain ⟨rid, st, dur, dead, rem, tz, ep, yf, rf, ua⟩ := s
  cases st <;> simp at hs
  obtain ⟨dead0, hdead⟩ : ∃ v, dead = some v := by
    cases dead with
    | none => simp at hd
    | some v => exact ⟨v, rfl⟩
  subst hdead
  have hv : dead0 = JsNum.num d := by
    injection hd
  subst hv
  have hdur : dur = JsNum.num D := hD
  subst hdur
  have hrem : max (0:ℚ) (max (t + 1000) (d + delta) - t) =
      max (t + 1000) (d + delta) - t := by
    have h := le_max_left (t + 1000) (d + delta)
    exact max_eq_right (by linarith)
  simp only [applyCmd, Option.getD, JsNum.jmax, JsNum.add, JsNum.sub,
    remainingFromAuthoritative, clampNonNeg, JsNum.lt]
  simp only [hrem]
  refine ⟨rfl, rfl, ?_⟩
  by_cases hcmp : D < max (t + 1000) (d + delta) - t
  · rw [if_pos (decide_eq_true hcmp), max_eq_right (le_of_lt hcmp)]
    rfl
  · rw [if_neg (fun h => hcmp (of_decide_eq_true h)),
      max_eq_left (not_lt.mp hcmp)]
    rfl

/-- Witness for C3 at the spec's duration auto-expansion example: a room
started with `durationMs = 60000` at instant 0 (remaining still 60000)
that receives `adjustTime(+5000)` ends with `durationMs = 65000`,
deadline 65000 and remaining 65000. -/
theorem claim_C3_witness :
    (applyCmd room60 (Cmd.adjustTime (some (JsNum.num 5000))) 0).deadlineMs =
      some (JsNum.num 65000) ∧
    (applyCmd room60 (Cmd.adjustTime (some (JsNum.num 5000))) 0).remainingMs =
      JsNum.num 65000 ∧
    (applyCmd room60 (Cmd.adjustTime (some (JsNum.num 5000))) 0).durationMs =
      JsNum.num 65000 := by
  have h := claim_C3 room60 60000 60000 5000 0
    (by rfl)
    (by show (applyCmd (initRoom "DEMO" 0) (Cmd.start (some (JsNum.num 60000))) 0).deadlineMs = _
        norm_num [applyCmd, initRoom, syncLegacyFields_deadlineMs, JsNum.jmax,
          JsNum.add, max_def])
    (by show (applyCmd (initRoom "DEMO" 0) (Cmd.start (some (JsNum.num 60000))) 0).durationMs = _
        norm_num [applyCmd, initRoom, syncLegacyFields_durationMs, JsNum.jmax,
          max_def])
  norm_num [max_def] at h
  exact h

/-- `syncLegacyFields` never touches `status` or `deadlineMs`, so it
preserves the authority invariant. -/
theorem statusDeadlineOk_syncLegacyFields (s : RoomState) (t : ℚ)
    (h : statusDeadlineOk s) : statusDeadlineOk (syncLegacyFields s t) := by
  unfold statusDeadlineOk at h ⊢
  simpa only [syncLegacyFields_status, syncLegacyFields_deadlineMs] using h

/-- `finalizeIfElapsed` preserves the authority invariant. -/
theorem statusDeadlineOk_finalizeIfElapsed (s : RoomState) (t : ℚ)
    (h : statusDeadlineOk s) : statusDeadlineOk (finalizeIfElapsed s t) := by
  unfold finalizeIfElapsed
  split
  · apply statusDeadlineOk_syncLegacyFields
    exact ⟨fun hc => by simp at hc, fun _ => rfl⟩
  · exact h

/-- Every command case preserves the authority invariant. -/
theorem statusDeadlineOk_applyCmd (s : RoomState) (c : Cmd) (n : ℚ)
    (h : statusDeadlineOk s) : statusDeadlineOk (applyCmd s c n) := by
  obtain ⟨rid, st, dur, dead, rem, tz, ep, yf, rf, ua⟩ := s
  unfold statusDeadlineOk at h ⊢
  rcases c with o | _ | _ | _ | o | o | ⟨iso, yfp, rfp⟩ | _ | _ <;>
    cases st <;> cases dead <;>
    simp_all [applyCmd, syncLegacyFields_status, syncLegacyFields_deadlineMs,
      apply_ite]

/-- Claim C5 (confirmed): starting from a freshly created room, every
handled message and every finalize-on-elapse pass preserves the
invariant that `deadlineMs` is a number exactly while `status = running`
and `null` otherwise — so exactly one of `{deadlineMs, remainingMs}` is
the authoritative time source, determined by `status`. -/
theorem claim_C5 :
    (∀ rid t, statusDeadlineOk (initRoom rid t)) ∧
    (∀ s role c n nb, statusDeadlineOk s →
      statusDeadlineOk (handleMessage s role c n nb).state) ∧
    (∀ s t, statusDeadlineOk s → statusDeadlineOk (finalizeIfElapsed s t)) := by
  refine ⟨?_, ?_, ?_⟩
  · intro rid t
    exact ⟨fun hc => by simp [initRoom] at hc, fun _ => rfl⟩
  · intro s role c n nb h
    unfold handleMessage
    split
    · exact h
    · exact statusDeadlineOk_syncLegacyFields _ _
        (statusDeadlineOk_finalizeIfElapsed _ _
          (statusDeadlineOk_finalizeIfElapsed _ _
            (statusDeadlineOk_applyCmd _ _ _
              (statusDeadlineOk_finalizeIfElapsed _ _ h))))
  · intro s t h
    exact statusDeadlineOk_finalizeIfElapsed s t h

/-- Witness for C5: the invariant holds after a `pause` handled on a
freshly created room. -/
theorem claim_C5_witness :
    statusDeadlineOk (handleMessage (initRoom "DEMO" 0) Role.control
      Cmd.pause 1 2).state :=
  claim_C5.2.1 (initRoom "DEMO" 0) Role.control Cmd.pause 1 2
    (claim_C5.1 "DEMO" 0)

/-- Claim C6 (confirmed): `pause` on a room that is already paused (with
its legacy mirror fields consistent, as every reachable paused room has
them) is a perfect no-op — the handler returns the state with every field
unchanged, `updatedAt` included; only the usual broadcast is emitted. -/
theorem claim_C6 (s : RoomState) (n nb : ℚ)
    (hp : s.status = Status.paused)
    (ht0 : s.t0 = none)
    (hep : s.elapsedPausedMs =
      JsNum.num (max 0 (s.durationMs.orZero - clampNonNeg s.remainingMs))) :
    handleMessage s Role.control Cmd.pause n nb =
      { state := s, sent := Sendee.members } := by
  obtain ⟨rid, st, dur, dead, rem, tz, ep, yf, rf, ua⟩ := s
  cases st <;> simp at hp
  replace ht0 : tz = none := ht0
  replace hep : ep = JsNum.num (max 0 (dur.orZero - clampNonNeg rem)) := hep
  subst ht0
  subst hep
  unfold handleMessage
  rw [if_neg (fun hgate => hgate.2 rfl)]
  have hnofin : ∀ u : ℚ,
      finalizeIfElapsed
        ⟨rid, Status.paused, dur, dead, rem, none,
          JsNum.num (max 0 (dur.orZero - clampNonNeg rem)), yf, rf, ua⟩ u =
      ⟨rid, Status.paused, dur, dead, rem, none,
        JsNum.num (max 0 (dur.orZero - clampNonNeg rem)), yf, rf, ua⟩ :=
    fun u => finalizeIfElapsed_of_not_running _ u (by simp)
  rw [hnofin n]
  have happ : applyCmd
      ⟨rid, Status.paused, dur, dead, rem, none,
        JsNum.num (max 0 (dur.orZero - clampNonNeg rem)), yf, rf, ua⟩
      Cmd.pause n =
      ⟨rid, Status.paused, dur, dead, rem, none,
        JsNum.num (max 0 (dur.orZero - clampNonNeg rem)), yf, rf, ua⟩ := by
    unfold applyCmd
    rw [if_neg (by simp)]
  rw [happ, hnofin nb]
  unfold broadcastPhase
  rw [hnofin nb]
  unfold syncLegacyFields remainingFromAuthoritative
  rfl

/-- Witness for C6: `pause` on the concrete consistent paused room changes
nothing. -/
theorem claim_C6_witness :
    handleMessage pausedRoom Role.control Cmd.pause 9 10 =
      { state := pausedRoom, sent := Sendee.members } :=
  claim_C6 pausedRoom 9 10 rfl rfl
    (by norm_num [pausedRoom, JsNum.orZero, JsNum.orElse, clampNonNeg, max_def])

/-- Claim C8, counterexample.  The claim says `requestSnapshot` triggers a
snapshot "to the requester only, not to the other members of the room".
In `src/backend/server.js` the `requestSnapshot` case falls through to the
normal post-command broadcast, so the snapshot goes to every member of
the room, not just the requester. -/
theorem claim_C8_counterexample :
    (handleMessage (initRoom "DEMO" 0) Role.display
        Cmd.requestSnapshot 5 5).sent = Sendee.members ∧
    Sendee.members ≠ Sendee.requester := by
  constructor
  · unfold handleMessage
    rw [if_neg (fun h => Bool.noConfusion h.1)]
  · decide

/-- Claim C8 as amended: in `src/backend/server.js`, `requestSnapshot`
(from either role) leaves every authoritative field of the room state
unchanged — `status`, `durationMs`, `deadlineMs`, `remainingMs`,
`updatedAt`, the threshold fractions and the room id — provided
finalize-on-elapse does not fire, and the snapshot is broadcast to every
member of the room (the requester included), not to the requester only. -/
theorem claim_C8_amended (s : RoomState) (role : Role) (n nb : ℚ)
    (h1 : ¬(s.status = Status.running ∧ remainingFromAuthoritative s n ≤ 0))
    (h2 : ¬(s.status = Status.running ∧ remainingFromAuthoritative s nb ≤ 0)) :
    (handleMessage s role Cmd.requestSnapshot n nb).sent = Sendee.members ∧
    (handleMessage s role Cmd.requestSnapshot n nb).state.roomId = s.roomId ∧
    (handleMessage s role Cmd.requestSnapshot n nb).state.status = s.status ∧
    (handleMessage s role Cmd.requestSnapshot n nb).state.durationMs =
      s.durationMs ∧
    (handleMessage s role Cmd.requestSnapshot n nb).state.deadlineMs =
      s.deadlineMs ∧
    (handleMessage s role Cmd.requestSnapshot n nb).state.remainingMs =
      s.remainingMs ∧
    (handleMessage s role Cmd.requestSnapshot n nb).state.updatedAt =
      s.updatedAt ∧
    (handleMessage s role Cmd.requestSnapshot n nb).state.yellowFrac =
      s.yellowFrac ∧
    (handleMessage s role Cmd.requestSnapshot n nb).state.redFrac =
      s.redFrac := by
  have e1 : finalizeIfElapsed s n = s := by
    unfold finalizeIfElapsed
    exact if_neg h1
  have e2 : finalizeIfElapsed s nb = s := by
    unfold finalizeIfElapsed
    exact if_neg h2
  have hmsg : handleMessage s role Cmd.requestSnapshot n nb =
      { state := syncLegacyFields s nb, sent := Sendee.members } := by
    unfold handleMessage
    rw [if_neg (fun h => Bool.noConfusion h.1)]
    unfold broadcastPhase
    rw [e1]
    show HandlerResult.mk
      (syncLegacyFields (finalizeIfElapsed (finalizeIfElapsed s nb) nb) nb)
      Sendee.members = _
    rw [e2, e2]
  rw [hmsg]
  exact ⟨rfl, syncLegacyFields_roomId s nb, syncLegacyFields_status s nb,
    syncLegacyFields_durationMs s nb, syncLegacyFields_deadlineMs s nb,
    syncLegacyFields_remainingMs s nb, syncLegacyFields_updatedAt s nb,
    syncLegacyFields_yellowFrac s nb, syncLegacyFields_redFrac s nb⟩

/-- Witness for the amended C8: a display-role `requestSnapshot` on the
concrete paused room broadcasts to all members and preserves every
authoritative field. -/
theorem claim_C8_amended_witness :
    (handleMessage pausedRoom Role.display Cmd.requestSnapshot 20 21).sent =
      Sendee.members ∧
    (handleMessage pausedRoom Role.display
        Cmd.requestSnapshot 20 21).state.roomId = pausedRoom.roomId ∧
    (handleMessage pausedRoom Role.display
        Cmd.requestSnapshot 20 21).state.status = pausedRoom.status ∧
    (handleMessage pausedRoom Role.display
        Cmd.requestSnapshot 20 21).state.durationMs = pausedRoom.durationMs ∧
    (handleMessage pausedRoom Role.display
        Cmd.requestSnapshot 20 21).state.deadlineMs = pausedRoom.deadlineMs ∧
    (handleMessage pausedRoom Role.display
        Cmd.requestSnapshot 20 21).state.remainingMs = pausedRoom.remainingMs ∧
    (handleMessage pausedRoom Role.display
        Cmd.requestSnapshot 20 21).state.updatedAt = pausedRoom.updatedAt ∧
    (handleMessage pausedRoom Role.display
        Cmd.requestSnapshot 20 21).state.yellowFrac = pausedRoom.yellowFrac ∧
    (handleMessage pausedRoom Role.display
        Cmd.requestSnapshot 20 21).state.redFrac = pausedRoom.redFrac :=
  claim_C8_amended pausedRoom Role.display 20 21
    (fun h => absurd h.1 (by decide)) (fun h => absurd h.1 (by decide))

/-- A heartbeat visit with members, an active status and no usable cache
entry (`_lastMsg === null`) serializes a fresh message. -/
theorem heartbeatTick_build (st : RoomState) (cc : Nat) (la t : ℚ)
    (hc : cc ≠ 0) (ha : isActive st.status = true) :
    heartbeatTick (RoomBox.mk st cc none la) t =
      TickResult.mk
        (RoomBox.mk (syncLegacyFields (finalizeIfElapsed st t) t) cc
          (some (makeSnapshotPayload
            (syncLegacyFields (finalizeIfElapsed st t) t) t)) t)
        (some (makeSnapshotPayload
          (syncLegacyFields (finalizeIfElapsed st t) t) t))
        true := by
  simp [heartbeatTick, hc, ha]

/-- A heartbeat visit whose cache entry is from an older tick timestamp
(`_lastMsgAt !== t`) also serializes a fresh message. -/
theorem heartbeatTick_build_stale (st : RoomState) (cc : Nat)
    (m0 : SnapshotMsg) (la t : ℚ)
    (hc : cc ≠ 0) (ha : isActive st.status = true) (hla : la ≠ t) :
    heartbeatTick (RoomBox.mk st cc (some m0) la) t =
      TickResult.mk
        (RoomBox.mk (syncLegacyFields (finalizeIfElapsed st t) t) cc
          (some (makeSnapshotPayload
            (syncLegacyFields (finalizeIfElapsed st t) t) t)) t)
        (some (makeSnapshotPayload
          (syncLegacyFields (finalizeIfElapsed st t) t) t))
        true := by
  simp [heartbeatTick, hc, ha, hla]

/-- A heartbeat visit whose cache entry carries the current tick
timestamp reuses the cached message: no re-serialization. -/
theorem heartbeatTick_hit (st : RoomState) (cc : Nat) (m0 : SnapshotMsg)
    (t : ℚ) (hc : cc ≠ 0) (ha : isActive st.status = true) :
    heartbeatTick (RoomBox.mk st cc (some m0) t) t =
      TickResult.mk (RoomBox.mk (finalizeIfElapsed st t) cc (some m0) t)
        (some m0) false := by
  simp [heartbeatTick, hc, ha]

/-- Claim C7 (confirmed, `src/unnamed/part_000` heartbeat): on every tick
at instant `t`, a room with at least one member connection and a
non-idle status (i) has the finalize-on-elapse check re-run (an elapsed
running room comes out `finished`), (ii) gets a snapshot delivered to
every member even though no client command arrived, carrying the fresh
`serverNow = t` of this tick, and (iii) a second heartbeat pass at the
same tick timestamp does not re-serialize: it reuses the identical cached
message.  The hypothesis `cacheOk` states that any cached message was
serialized with `serverNow` equal to the cached tick timestamp, which is
true of every cache entry the heartbeat writes. -/
theorem claim_C7 (r : RoomBox) (t : ℚ)
    (hc : r.clientsCount ≠ 0)
    (ha : isActive r.state.status = true)
    (hk : cacheOk r = true) :
    (∃ m, (heartbeatTick r t).sent = some m ∧ m.serverNow = t) ∧
    ((r.state.status = Status.running ∧
        remainingFromAuthoritative r.state t ≤ 0) →
      (heartbeatTick r t).box.state.status = Status.finished) ∧
    (heartbeatTick (heartbeatTick r t).box t).rebuilt = false ∧
    (heartbeatTick (heartbeatTick r t).box t).sent =
      (heartbeatTick r t).sent := by
  obtain ⟨st, cc, lm, la⟩ := r
  replace hc : cc ≠ 0 := hc
  replace ha : isActive st.status = true := ha
  have hfinstat : ∀ hrun : st.status = Status.running ∧
      remainingFromAuthoritative st t ≤ 0,
      (finalizeIfElapsed st t).status = Status.finished := by
    intro hrun
    rw [finalizeIfElapsed_fires st t hrun.1 hrun.2, syncLegacyFields_status]
  have hactfin : isActive (finalizeIfElapsed st t).status = true :=
    isActive_finalizeIfElapsed st t ha
  have hactsync : isActive (syncLegacyFields (finalizeIfElapsed st t) t).status
      = true := by
    rw [syncLegacyFields_status]
    exact hactfin
  cases lm with
  | none =>
      rw [heartbeatTick_build st cc la t hc ha]
      refine ⟨⟨_, rfl, rfl⟩, ?_, ?_, ?_⟩
      · intro hrun
        show (syncLegacyFields (finalizeIfElapsed st t) t).status =
          Status.finished
        rw [syncLegacyFields_status]
        exact hfinstat hrun
      · rw [heartbeatTick_hit _ cc _ t hc hactsync]
      · rw [heartbeatTick_hit _ cc _ t hc hactsync]
  | some m0 =>
      replace hk : decide (m0.serverNow = la) = true := hk
      have hnow : m0.serverNow = la := of_decide_eq_true hk
      by_cases hla : la = t
      · subst hla
        rw [heartbeatTick_hit st cc m0 la hc ha]
        refine ⟨⟨m0, rfl, hnow⟩, ?_, ?_, ?_⟩
        · intro hrun
          exact hfinstat hrun
        · rw [heartbeatTick_hit _ cc _ la hc hactfin]
        · rw [heartbeatTick_hit _ cc _ la hc hactfin]
      · rw [heartbeatTick_build_stale st cc m0 la t hc ha hla]
        refine ⟨⟨_, rfl, rfl⟩, ?_, ?_, ?_⟩
        · intro hrun
          show (syncLegacyFields (finalizeIfElapsed st t) t).status =
            Status.finished
          rw [syncLegacyFields_status]
          exact hfinstat hrun
        · rw [heartbeatTick_hit _ cc _ t hc hactsync]
        · rw [heartbeatTick_hit _ cc _ t hc hactsync]

/-- Witness for C7: the concrete paused room box with one member at tick
instant 11. -/
theorem claim_C7_witness :
    (∃ m, (heartbeatTick pausedBox 11).sent = some m ∧ m.serverNow = 11) ∧
    ((pausedBox.state.status = Status.running ∧
        remainingFromAuthoritative pausedBox.state 11 ≤ 0) →
      (heartbeatTick pausedBox 11).box.state.status = Status.finished) ∧
    (heartbeatTick (heartbeatTick pausedBox 11).box 11).rebuilt = false ∧
    (heartbeatTick (heartbeatTick pausedBox 11).box 11).sent =
      (heartbeatTick pausedBox 11).sent :=
  claim_C7 pausedBox 11 (by decide) (by decide) (by decide)

/-- Claim C9 (confirmed): a state-mutating command arriving on a
connection whose role is not `control` is silently dropped by both server
variants — the room state is returned unchanged and no snapshot is sent
to anybody. -/
theorem claim_C9 (s : RoomState) (role : Role) (c : Cmd) (n nb : ℚ)
    (hm : isMutating c = true) (hr : role ≠ Role.control) :
    handleMessage s role c n nb = { state := s, sent := Sendee.nobody } ∧
    handleMessageB s role c n nb = { state := s, sent := Sendee.nobody } := by
  constructor
  · unfold handleMessage
    exact if_pos ⟨hm, hr⟩
  · unfold handleMessageB
    exact if_pos ⟨hm, hr⟩

/-- Witness for C9: a `finish` from a display-role connection on the
concrete paused room is dropped with no state change and no send. -/
theorem claim_C9_witness :
    handleMessage pausedRoom Role.display Cmd.finish 9 9 =
      { state := pausedRoom, sent := Sendee.nobody } ∧
    handleMessageB pausedRoom Role.display Cmd.finish 9 9 =
      { state := pausedRoom, sent := Sendee.nobody } :=
  claim_C9 pausedRoom Role.display Cmd.finish 9 9 rfl (by decide)

/-- Claim C10 (confirmed): `ensureRoom` installs `status = idle`,
`durationMs = 180000`, `remainingMs = 180000`, `deadlineMs = null`, so a
`start` with no `durationMs` payload on a fresh room (after the
finalize-before-apply pass, a no-op on an idle room) runs a 3-minute
countdown: running, duration 180000, deadline `u + 180000`. -/
theorem claim_C10 (rid : String) (t u : ℚ) :
    (initRoom rid t).status = Status.idle ∧
    (initRoom rid t).durationMs = JsNum.num 180000 ∧
    (initRoom rid t).remainingMs = JsNum.num 180000 ∧
    (initRoom rid t).deadlineMs = none ∧
    (applyCmd (finalizeIfElapsed (initRoom rid t) u) (Cmd.start none) u).status =
      Status.running ∧
    (applyCmd (finalizeIfElapsed (initRoom rid t) u) (Cmd.start none) u).durationMs =
      JsNum.num 180000 ∧
    (applyCmd (finalizeIfElapsed (initRoom rid t) u) (Cmd.start none) u).deadlineMs =
      some (JsNum.num (u + 180000)) ∧
    (applyCmd (finalizeIfElapsed (initRoom rid t) u) (Cmd.start none) u).remainingMs =
      JsNum.num 180000 := by
  have hfin : finalizeIfElapsed (initRoom rid t) u = initRoom rid t :=
    finalizeIfElapsed_of_not_running _ _ (by simp [initRoom])
  have hdur : JsNum.jmax (JsNum.num 1000) ((none : Option JsNum).getD
      (initRoom rid t).durationMs) = JsNum.num 180000 := by
    simp [initRoom, JsNum.jmax]
    norm_num
  refine ⟨rfl, rfl, rfl, rfl, ?_, ?_, ?_, ?_⟩ <;>
    rw [hfin] <;>
    simp only [applyCmd, hdur, syncLegacyFields_status, syncLegacyFields_durationMs,
      syncLegacyFields_deadlineMs, syncLegacyFields_remainingMs]
  rfl
